import Mathlib

/-!
# ChessPredictor: verification of the position-state manager and engine orchestrator

Shallow embedding of the core of `chess_predictor.py` (with the sibling
`functional_chessboard.py` and `eval.py`).  The external rules library
(python-chess) and the external oracle (Stockfish) are modelled at their
interface boundary, as the specification prescribes: legality, push, FEN
rendering and game-end verdicts are parameters, never re-implemented.
-/

namespace ChessPredictor

/-! ## Piece and board model

A board is the 64-entry array of optional pieces kept by python-chess
(square 0 = a1 … 63 = h8); `piece_at`, `set_piece_at` and
`remove_piece_at` are its accessors used by the source. -/

inductive Color where
  | white
  | black
deriving DecidableEq

inductive PieceKind where
  | pawn
  | knight
  | bishop
  | rook
  | queen
  | king
deriving DecidableEq

structure Piece where
  color : Color
  piece_type : PieceKind
deriving DecidableEq

abbrev SetupBoard := List (Option Piece)

/-- `board.piece_at(sq)` — the occupant of a square (none when empty or out of range). -/
def piece_at (b : SetupBoard) (sq : Nat) : Option Piece :=
  b.getD sq none

/-- `board.set_piece_at(sq, p)` with `p = None` meaning removal, as in python-chess. -/
def set_piece_at (b : SetupBoard) (sq : Nat) (p : Option Piece) : SetupBoard :=
  b.set sq p

/-- The board left by `board.remove_piece_at(sq)` (the removed piece itself is
read with `piece_at` beforehand, as the source does). -/
def remove_piece_at (b : SetupBoard) (sq : Nat) : SetupBoard :=
  b.set sq none

/-! ## Setup-mode validation and placement

`ChessPredictor.is_valid_move` (chess_predictor.py lines 441–448), Setup
branch: the only check is that the destination does not hold a king; the
source square is never examined. -/

def is_valid_move_setup (b : SetupBoard) (to_square : Nat) : Bool :=
  match piece_at b to_square with
  | some target_piece => !(target_piece.piece_type == PieceKind.king)
  | none => true

/-- The Setup-mode placement performed on mouse release
(chess_predictor.py lines 678–682):
`piece = board.remove_piece_at(selected); board.remove_piece_at(target);
board.set_piece_at(target, piece)`. -/
def setup_apply (b : SetupBoard) (from_square to_square : Nat) : SetupBoard :=
  let piece := piece_at b from_square
  let b1 := remove_piece_at b from_square
  let b2 := remove_piece_at b1 to_square
  set_piece_at b2 to_square piece

/-- The guarded Setup-mode action of the event loop: the placement runs only
when `is_valid_move` accepted it, and the boolean verdict is what the call
reports. -/
def setup_action (b : SetupBoard) (from_square to_square : Nat) : Bool × SetupBoard :=
  if is_valid_move_setup b to_square then
    (true, setup_apply b from_square to_square)
  else
    (false, b)

/-! Helper lemmas about `piece_at` after `List.set`. -/

theorem piece_at_set_self (b : SetupBoard) (i : Nat) (p : Option Piece)
    (h : i < b.length) : piece_at (b.set i p) i = p := by
  induction b generalizing i with
  | nil => simp at h
  | cons x xs ih =>
    cases i with
    | zero => simp [piece_at]
    | succ n =>
      simp only [List.set_cons_succ, piece_at, List.getD]
      exact ih n (by simpa using h)

theorem piece_at_set_other (b : SetupBoard) (i j : Nat) (p : Option Piece)
    (h : i ≠ j) : piece_at (b.set i p) j = piece_at b j := by
  induction b generalizing i j with
  | nil => simp [piece_at]
  | cons x xs ih =>
    cases i with
    | zero =>
      cases j with
      | zero => exact absurd rfl h
      | succ m => simp [piece_at]
    | succ n =>
      cases j with
      | zero => simp [piece_at]
      | succ m =>
        simp only [List.set_cons_succ, piece_at, List.getD]
        exact ih n m (fun hnm => h (by rw [hnm]))

theorem length_setup_apply (b : SetupBoard) (i j : Nat) :
    (setup_apply b i j).length = b.length := by
  simp [setup_apply, set_piece_at, remove_piece_at]

/-- C3: in Setup mode, an action whose destination holds a king of either
color fails and leaves the board unchanged; an action with a non-empty source
and a non-king destination succeeds, puts the source occupant on the
destination (discarding its prior occupant), empties the source, and touches
no other square. -/
theorem setup_tryAction_spec (b : SetupBoard) (from_square to_square : Nat)
    (hfrom : from_square < b.length) (hto : to_square < b.length) :
    ((∃ p, piece_at b to_square = some p ∧ p.piece_type = PieceKind.king) →
        setup_action b from_square to_square = (false, b)) ∧
    ((∃ p, piece_at b from_square = some p) →
      (∀ q, piece_at b to_square = some q → q.piece_type ≠ PieceKind.king) →
        (setup_action b from_square to_square).1 = true ∧
        piece_at (setup_action b from_square to_square).2 to_square =
          piece_at b from_square ∧
        (from_square ≠ to_square →
          piece_at (setup_action b from_square to_square).2 from_square = none) ∧
        (∀ sq, sq ≠ from_square → sq ≠ to_square →
          piece_at (setup_action b from_square to_square).2 sq = piece_at b sq)) := by
  constructor
  · rintro ⟨p, hp, hk⟩
    simp [setup_action, is_valid_move_setup, hp, hk]
  · rintro ⟨p, hp⟩ hq
    have hvalid : is_valid_move_setup b to_square = true := by
      unfold is_valid_move_setup
      cases hdest : piece_at b to_square with
      | none => rfl
      | some q =>
        have : q.piece_type ≠ PieceKind.king := hq q hdest
        simp [this]
    have haction : setup_action b from_square to_square =
        (true, setup_apply b from_square to_square) := by
      simp [setup_action, hvalid]
    rw [haction]
    refine ⟨rfl, ?_, ?_, ?_⟩
    · show piece_at (setup_apply b from_square to_square) to_square = _
      unfold setup_apply set_piece_at remove_piece_at
      exact piece_at_set_self _ _ _ (by simpa using hto)
    · intro hne
      show piece_at (setup_apply b from_square to_square) from_square = none
      unfold setup_apply set_piece_at remove_piece_at
      rw [piece_at_set_other _ _ _ _ (fun h => hne h.symm),
          piece_at_set_other _ _ _ _ (fun h => hne h.symm)]
      exact piece_at_set_self _ _ _ hfrom
    · intro sq hsf hst
      show piece_at (setup_apply b from_square to_square) sq = piece_at b sq
      unfold setup_apply set_piece_at remove_piece_at
      rw [piece_at_set_other _ _ _ _ (fun h => hst h.symm),
          piece_at_set_other _ _ _ _ (fun h => hst h.symm),
          piece_at_set_other _ _ _ _ (fun h => hsf h.symm)]

/-- A board with the white king on e1 (square 4) and a white pawn on a2
(square 8), used to instantiate `setup_tryAction_spec`. -/
def witness_setup_board : SetupBoard :=
  ((List.replicate 64 (none : Option Piece)).set 4
      (some ⟨Color.white, PieceKind.king⟩)).set 8
    (some ⟨Color.white, PieceKind.pawn⟩)

/-- Witness for C3: moving the a2 pawn onto the king square fails and leaves
the board alone; moving it to the empty square 12 succeeds and relocates it. -/
theorem setup_tryAction_spec_witness :
    (setup_action witness_setup_board 8 4 = (false, witness_setup_board)) ∧
    ((setup_action witness_setup_board 8 12).1 = true ∧
      piece_at (setup_action witness_setup_board 8 12).2 12 =
        piece_at witness_setup_board 8) :=
  ⟨(setup_tryAction_spec witness_setup_board 8 4 (by decide) (by decide)).1
      ⟨⟨Color.white, PieceKind.king⟩, by decide, rfl⟩,
    by
      have h := (setup_tryAction_spec witness_setup_board 8 12 (by decide)
          (by decide)).2
        ⟨⟨Color.white, PieceKind.pawn⟩, by decide⟩
        (fun q hq => by
          rw [(by decide : piece_at witness_setup_board 12 = none)] at hq
          cases hq)
      exact ⟨h.1, h.2.1⟩⟩

/-- A board whose only piece is a white pawn on a1 (square 0); square 1 (b1)
is empty. -/
def empty_source_board : SetupBoard :=
  (List.replicate 64 (none : Option Piece)).set 0 (some ⟨Color.white, PieceKind.pawn⟩)

/-- C4: with an empty source square (b1) and a pawn on the destination (a1),
the Setup-mode action reports success — not failure — and deletes the
destination pawn, leaving an empty board.  The validation only ever looks at
the destination square. -/
theorem setup_empty_source_deletes_destination :
    piece_at empty_source_board 1 = none ∧
    setup_action empty_source_board 1 0 = (true, List.replicate 64 none) := by
  decide

/-! ## Mode state machine

`handle_button_click` on a mode button (chess_predictor.py lines 588–591)
does exactly `self.current_mode = mode; self.valid_moves.clear()`; the
selected piece and the AI-suggestion highlight are not touched. -/

inductive Mode where
  | setup
  | analysis
  | play
deriving DecidableEq

structure UIState where
  board : SetupBoard
  current_mode : Mode
  selected_piece : Option Nat
  valid_moves : List Nat
  ai_suggested_square : Option Nat
deriving DecidableEq

def select_mode (s : UIState) (m : Mode) : UIState :=
  { s with current_mode := m, valid_moves := [] }

/-- An analysis-mode state in which square 12 is selected, square 28 is a
highlighted legal destination and square 20 carries the AI-suggestion
highlight. -/
def highlighted_state : UIState :=
  { board := List.replicate 64 none
    current_mode := Mode.analysis
    selected_piece := some 12
    valid_moves := [28]
    ai_suggested_square := some 20 }

/-- C5 counterexample: a mode transition does not clear the selection nor the
AI-suggestion highlight, so the claim "the current selection/highlight state
is cleared" fails at this state. -/
theorem select_mode_not_all_cleared :
    ¬ ((select_mode highlighted_state Mode.play).selected_piece = none ∧
       (select_mode highlighted_state Mode.play).ai_suggested_square = none) := by
  decide

/-- C5 amended: a mode transition leaves the board contents unchanged, records
the new mode, clears the legal-move highlight list, and leaves the
selected-piece marker and the AI-suggestion highlight unchanged. -/
theorem select_mode_spec (s : UIState) (m : Mode) :
    (select_mode s m).board = s.board ∧
    (select_mode s m).current_mode = m ∧
    (select_mode s m).valid_moves = [] ∧
    (select_mode s m).selected_piece = s.selected_piece ∧
    (select_mode s m).ai_suggested_square = s.ai_suggested_square :=
  ⟨rfl, rfl, rfl, rfl, rfl⟩

/-! ## Move Validator & Applier in Analysis/Play mode

`ChessPredictor.make_move` (chess_predictor.py lines 457–469) defers
legality, move application and FEN rendering entirely to python-chess; the
rules library is therefore a parameter of the embedding, with an abstract
board type `B` and move type `M`. -/

structure Rules (B M : Type) where
  is_legal : B → M → Bool
  push : B → M → B
  fen : B → String

/-- The Position Store fields mutated by `make_move`: the board, the move
history and the (pre-move) FEN snapshot history. -/
structure GameState (B M : Type) where
  board : B
  move_history : List M
  position_history : List String

/-- `ChessPredictor.make_move`: when the rules library reports the move
legal, append it to `move_history`, snapshot the pre-move FEN into
`position_history`, push the move on the board and return `True`; otherwise
return `False` and change nothing.  (The asynchronous Stockfish comparison it
also fires writes only its own result slot, modelled separately.) -/
def make_move (R : Rules B M) (s : GameState B M) (m : M) : Bool × GameState B M :=
  if R.is_legal s.board m then
    (true,
      { board := R.push s.board m
        move_history := s.move_history ++ [m]
        position_history := s.position_history ++ [R.fen s.board] })
  else
    (false, s)

/-- C1: for a move the rules library accepts, `make_move` returns true, the
move history grows by exactly one record, and the resulting board is the
rules library's application of that move to the prior board. -/
theorem make_move_legal (R : Rules B M) (s : GameState B M) (m : M)
    (h : R.is_legal s.board m = true) :
    (make_move R s m).1 = true ∧
    (make_move R s m).2.move_history.length = s.move_history.length + 1 ∧
    (make_move R s m).2.board = R.push s.board m := by
  simp [make_move, h]

/-- C2: for a move the rules library rejects, `make_move` returns false and
the Position Store (board, move history, position history) is exactly the
prior state; the failure is the boolean itself, the function is total. -/
theorem make_move_illegal (R : Rules B M) (s : GameState B M) (m : M)
    (h : R.is_legal s.board m = false) :
    make_move R s m = (false, s) := by
  simp [make_move, h]

/-- A tiny concrete rules library used to instantiate the `make_move`
theorems: boards are numbers, a move adds its value, legality is being
below 8. -/
def toy_rules : Rules Nat Nat :=
  { is_legal := fun _ m => decide (m < 8)
    push := fun b m => b + m
    fen := fun b => toString b }

/-- Witness for C1 at the concrete rules library: move 3 from board 0. -/
theorem make_move_legal_witness :
    toy_rules.is_legal 0 3 = true ∧
    ((make_move toy_rules ⟨0, [], []⟩ 3).1 = true ∧
     (make_move toy_rules ⟨0, [], []⟩ 3).2.move_history.length =
       ([] : List Nat).length + 1 ∧
     (make_move toy_rules ⟨0, [], []⟩ 3).2.board = toy_rules.push 0 3) :=
  ⟨by decide, make_move_legal toy_rules ⟨0, [], []⟩ 3 (by decide)⟩

/-- Witness for C2 at the concrete rules library: move 9 is illegal. -/
theorem make_move_illegal_witness :
    toy_rules.is_legal 0 9 = false ∧
    make_move toy_rules ⟨0, [], []⟩ 9 = (false, ⟨0, [], []⟩) :=
  ⟨by decide, make_move_illegal toy_rules ⟨0, [], []⟩ 9 (by decide)⟩

/-! ## Position Store reset and undo

The `reset_position` button (chess_predictor.py lines 612–618) restores the
starting board and clears both histories.  No `undoLast` exists anywhere in
the source; the specification declares it for the Position Store (§4.1), so
it is modelled from the spec below. -/

/-- `handle_button_click` on `reset_position`: `self.board = chess.Board()`
(the starting position, a parameter here since boards are abstract),
`self.move_history.clear()`, `self.position_history.clear()`. -/
def reset_position (start : B) (_s : GameState B M) : GameState B M :=
  { board := start, move_history := [], position_history := [] }

/-- Modelled from the spec: `undoLast()` is listed among the Position Store
operations (§4.1) but is implemented nowhere in the source.  Per the spec it
pops the most recent Move Record, restoring the board from the snapshot FEN
recorded before that move (decoded by the rules library's `of_fen`), and with
nothing to undo it is a no-op and must not error. -/
def undoLast (of_fen : String → B) (s : GameState B M) : GameState B M :=
  match s.position_history.getLast?, s.move_history with
  | some f, _ :: _ =>
      { board := of_fen f
        move_history := s.move_history.dropLast
        position_history := s.position_history.dropLast }
  | _, _ => s

/-- C9: `reset(toStartingPosition=true)` followed by `undoLast` is a no-op —
the state after the undo equals the state right after the reset — and the
undo is a total function, so it cannot raise. -/
theorem undoLast_after_reset (start : B) (of_fen : String → B)
    (s : GameState B M) :
    undoLast of_fen (reset_position start s) = reset_position start s := by
  rfl

/-! ## Move-Rank Comparator

`get_stockfish_comparison` / `comparison_worker` (chess_predictor.py lines
542–582).  The oracle's answer to `get_top_moves(5)` is a list of entries
with a move identifier and an optional centipawn score; the worker scans it
for the user's move and reformats it. -/

structure TopMove where
  move : String
  centipawn : Option Int
deriving DecidableEq

structure FormattedMove where
  move : String
  centipawn : Option Int
  mate : Option Int
deriving DecidableEq

structure ComparisonResult where
  user_rank : Option Nat
  top_moves : List FormattedMove
  user_move : String
deriving DecidableEq

/-- The rank-scan loop of `comparison_worker` (lines 558–562):
`for i, move_data in enumerate(top_moves): if move_data['Move'] == user_move:
user_rank = i + 1; break`, with `i` the running enumeration index. -/
def find_user_rank (user_move : String) : List TopMove → Nat → Option Nat
  | [], _ => none
  | move_data :: rest, i =>
      if move_data.move == user_move then some (i + 1)
      else find_user_rank user_move rest (i + 1)

/-- The reformatting loop (lines 565–571): each oracle entry is kept in order
with its move and centipawn value, and `mate` is always `None`. -/
def format_moves (top_moves : List TopMove) : List FormattedMove :=
  top_moves.map fun move_data =>
    { move := move_data.move, centipawn := move_data.centipawn, mate := none }

/-- The comparison record written to `self.stockfish_comparison`
(lines 573–577). -/
def get_stockfish_comparison (top_moves : List TopMove) (user_move : String) :
    ComparisonResult :=
  { user_rank := find_user_rank user_move top_moves 0
    top_moves := format_moves top_moves
    user_move := user_move }

/-- Written from the spec's words: "rank = 1-based index of match, or null if
absent from the top-N" — the 1-based position of the first exact identifier
match. -/
def rank_spec (user_move : String) : List TopMove → Option Nat
  | [] => none
  | move_data :: rest =>
      if move_data.move = user_move then some 1
      else (rank_spec user_move rest).map (· + 1)

theorem find_user_rank_eq_rank_spec (user_move : String) (l : List TopMove)
    (i : Nat) :
    find_user_rank user_move l i = (rank_spec user_move l).map (· + i) := by
  induction l generalizing i with
  | nil => rfl
  | cons md rest ih =>
    by_cases h : md.move = user_move
    · simp [find_user_rank, rank_spec, h, Nat.add_comm]
    · simp only [find_user_rank, rank_spec, h, if_neg, beq_iff_eq, ih]
      cases rank_spec user_move rest with
      | none => rfl
      | some j => simp [Option.map_some, Nat.add_assoc, Nat.add_comm i 1]

theorem rank_spec_none_iff (user_move : String) (l : List TopMove) :
    rank_spec user_move l = none ↔ ∀ md ∈ l, md.move ≠ user_move := by
  induction l with
  | nil => simp [rank_spec]
  | cons md rest ih =>
    by_cases h : md.move = user_move
    · simp [rank_spec, h]
    · simp only [rank_spec, if_neg h, List.mem_cons]
      cases hr : rank_spec user_move rest with
      | none =>
        simp only [Option.map_none']
        constructor
        · intro _ x hx
          rcases hx with hx | hx
          · rw [hx]; exact h
          · exact (ih.mp hr) x hx
        · intro _; trivial
      | some j =>
        simp only [Option.map_some']
        constructor
        · intro hc; cases hc
        · intro hall
          have : rank_spec user_move rest = none :=
            ih.mpr fun x hx => hall x (Or.inr hx)
          rw [this] at hr; cases hr

/-- The oracle top-5 list of the spec's worked example. -/
def example_top5 : List TopMove :=
  [⟨"e2e4", some 30⟩, ⟨"d2d4", some 25⟩, ⟨"g1f3", some 20⟩,
   ⟨"c2c4", some 15⟩, ⟨"b1c3", some 10⟩]

/-- C7: the stored rank is the 1-based index of the first exact identifier
match (null exactly when the identifier is absent from the list); the stored
list keeps the oracle's entries and order unmodified; and on the worked
example with user move d2d4 the rank is 2 and the list is exactly the five
oracle entries in order. -/
theorem get_stockfish_comparison_spec :
    (∀ (tms : List TopMove) (um : String),
        (get_stockfish_comparison tms um).user_rank = rank_spec um tms ∧
        ((get_stockfish_comparison tms um).user_rank = none ↔
          ∀ md ∈ tms, md.move ≠ um) ∧
        (get_stockfish_comparison tms um).top_moves.map
            (fun f => (f.move, f.centipawn)) =
          tms.map (fun t => (t.move, t.centipawn)) ∧
        (∀ f ∈ (get_stockfish_comparison tms um).top_moves, f.mate = none) ∧
        (get_stockfish_comparison tms um).user_move = um) ∧
    get_stockfish_comparison example_top5 "d2d4" =
      { user_rank := some 2
        top_moves :=
          [⟨"e2e4", some 30, none⟩, ⟨"d2d4", some 25, none⟩,
           ⟨"g1f3", some 20, none⟩, ⟨"c2c4", some 15, none⟩,
           ⟨"b1c3", some 10, none⟩]
        user_move := "d2d4" } := by
  constructor
  · intro tms um
    refine ⟨?_, ?_, ?_, ?_, rfl⟩
    · show find_user_rank um tms 0 = rank_spec um tms
      rw [find_user_rank_eq_rank_spec]
      cases rank_spec um tms <;> simp
    · show find_user_rank um tms 0 = none ↔ _
      rw [find_user_rank_eq_rank_spec, ← rank_spec_none_iff um tms]
      cases rank_spec um tms <;> simp
    · show (format_moves tms).map _ = _
      simp [format_moves]
    · intro f hf
      simp only [get_stockfish_comparison, format_moves, List.mem_map] at hf
      obtain ⟨t, _, ht⟩ := hf
      rw [← ht]
  · rfl

/-! ## Engine Query Orchestrator: result publication

`get_ai_move` (chess_predictor.py lines 471–540).  The pure decision of what
gets published: `stockfish_ai = none` models an unavailable oracle
(`self.stockfish_ai is None`); otherwise the list is the oracle's answer to
`get_top_moves(12)`. -/

inductive AIResult where
  | unavailable (message : String)
  | suggestion (move : String) (centipawn : Int)
deriving DecidableEq

def get_ai_move_result (stockfish_ai : Option (List TopMove)) : AIResult :=
  match stockfish_ai with
  | none => AIResult.unavailable "No AI available"
  | some top_moves =>
    match top_moves with
    | [] => AIResult.unavailable "No moves"
    | _ :: _ =>
      let move_index := min 9 (top_moves.length - 1)
      let selected_move := top_moves.getD move_index ⟨"", none⟩
      AIResult.suggestion selected_move.move (selected_move.centipawn.getD 0)

/-- C8: when the oracle is unavailable or returns no candidate moves, the
published result is one of the sentinel "unavailable" values, never a
suggestion; the publication logic is a total function, so the failure cannot
escape as an exception. -/
theorem get_ai_move_result_unavailable (stockfish_ai : Option (List TopMove))
    (h : stockfish_ai = none ∨ stockfish_ai = some []) :
    get_ai_move_result stockfish_ai = AIResult.unavailable "No AI available" ∨
    get_ai_move_result stockfish_ai = AIResult.unavailable "No moves" := by
  rcases h with h | h
  · subst h; exact Or.inl rfl
  · subst h; exact Or.inr rfl

/-- Witness for C8 at a concretely missing oracle. -/
theorem get_ai_move_result_unavailable_witness :
    ((none : Option (List TopMove)) = none ∨
      (none : Option (List TopMove)) = some []) ∧
    (get_ai_move_result none = AIResult.unavailable "No AI available" ∨
     get_ai_move_result none = AIResult.unavailable "No moves") :=
  ⟨Or.inl rfl, get_ai_move_result_unavailable none (Or.inl rfl)⟩

/-! ## Engine Query Orchestrator: supersession and staleness

The shared state crossed by the background workers is `self.ai_thinking` and
the result slot `self.last_ai_move` (with its companions).  Each `ai_worker`
(lines 486–538) performs, in order: `self.ai_thinking = True`, the oracle
call, the unconditional write of `self.last_ai_move`, and finally
`self.ai_thinking = False`.  The worker never reads `ai_thinking` after
starting and no freshness token exists anywhere; the superseding
`get_ai_move` call only executes `self.ai_thinking = False` (line 483) before
spawning its own worker. -/

structure AIShared where
  ai_thinking : Bool
  last_ai_move : Option String
deriving DecidableEq

inductive AIWrite where
  | set_thinking (value : Bool)
  | publish_move (move : String)
deriving DecidableEq

def run_write (s : AIShared) : AIWrite → AIShared
  | AIWrite.set_thinking value => { s with ai_thinking := value }
  | AIWrite.publish_move move => { s with last_ai_move := some move }

def run_writes (s : AIShared) (l : List AIWrite) : AIShared :=
  l.foldl run_write s

/-- The shared-state writes of one `ai_worker` that computed `move`: the
publish is unconditional — no guard on `ai_thinking`, no freshness-token
comparison. -/
def ai_worker_writes (move : String) : List AIWrite :=
  [AIWrite.set_thinking true, AIWrite.publish_move move,
   AIWrite.set_thinking false]

/-- The single write the superseding `get_ai_move` call performs on the
shared state (line 483, commented "Cancel previous request"). -/
def supersede_write : AIWrite := AIWrite.set_thinking false

/-- `zs` is an order-preserving interleaving of the two threads' write
sequences `xs` and `ys`. -/
inductive Interleaves : List α → List α → List α → Prop
  | nil : Interleaves [] [] []
  | left {x : α} {xs ys zs : List α} :
      Interleaves xs ys zs → Interleaves (x :: xs) ys (x :: zs)
  | right {y : α} {xs ys zs : List α} :
      Interleaves xs ys zs → Interleaves xs (y :: ys) (y :: zs)

/-- A real schedule of the source's writes: the first worker (computing the
stale move a7a6) starts; a second `get_ai_move` supersedes it and its worker
(computing e7e5) runs to completion, recording e7e5 as current; then the
first worker's oracle call returns and its publish still executes. -/
def stale_overwrite_schedule : List AIWrite :=
  [AIWrite.set_thinking true,
   supersede_write,
   AIWrite.set_thinking true,
   AIWrite.publish_move "e7e5",
   AIWrite.set_thinking false,
   AIWrite.publish_move "a7a6",
   AIWrite.set_thinking false]

/-- C6: the schedule above is a valid interleaving of the first worker's
writes with the superseding call's writes, yet after it the result slot holds
the first (stale) request's move, not the second's: the first request's
result is applied after the second's has been recorded as current, because
nothing in the code compares a freshness token or re-reads `ai_thinking`
before publishing. -/
theorem stale_result_overwrites_current :
    Interleaves (ai_worker_writes "a7a6")
      (supersede_write :: ai_worker_writes "e7e5") stale_overwrite_schedule ∧
    (run_writes ⟨false, none⟩ stale_overwrite_schedule).last_ai_move =
      some "a7a6" ∧
    ("a7a6" : String) ≠ "e7e5" :=
  ⟨Interleaves.left (Interleaves.right (Interleaves.right (Interleaves.right
      (Interleaves.right (Interleaves.left (Interleaves.left
        Interleaves.nil)))))),
    rfl, by decide⟩

/-! ## Static evaluation (eval.py)

`evaluate_board` asks python-chess for the game-end verdicts and counts
pieces; the verdicts are external capability answers (§6) and are therefore
parameters, while the counting and the arithmetic are embedded from the
source. -/

structure EvalBoard where
  grid : SetupBoard
  turn : Color

/-- The rules library's game-end verdicts for the position being evaluated. -/
structure GameEnd where
  is_checkmate : Bool
  is_stalemate : Bool
  is_insufficient_material : Bool

/-- `len(board.pieces(piece_type, color))`. -/
def pieces_count (grid : SetupBoard) (pt : PieceKind) (c : Color) : Nat :=
  grid.countP (fun sq => sq == some ⟨c, pt⟩)

/-- The (piece_type, value) pairs of eval.py lines 10–11. -/
def piece_values : List (PieceKind × Int) :=
  [(PieceKind.pawn, 100), (PieceKind.knight, 300), (PieceKind.bishop, 300),
   (PieceKind.rook, 500), (PieceKind.queen, 900)]

/-- The generator sum of eval.py lines 8–13:
`sum(len(board.pieces(pt, color)) * value for (pt, value) in … for color in
[WHITE, BLACK])`. -/
def material (grid : SetupBoard) : Int :=
  (piece_values.map (fun pv =>
    ([Color.white, Color.black].map
      (fun c => (pieces_count grid pv.1 c : Int) * pv.2)).sum)).sum

/-- `evaluate_board` (eval.py lines 2–14). -/
def evaluate_board (verdicts : GameEnd) (b : EvalBoard) : Int :=
  if verdicts.is_checkmate then
    (if b.turn == Color.white then -9999 else 9999)
  else if verdicts.is_stalemate || verdicts.is_insufficient_material then 0
  else if b.turn == Color.white then material b.grid else -(material b.grid)

/-- Per-piece material value (kings carry no material value in eval.py's
table). -/
def piece_value : PieceKind → Int
  | PieceKind.pawn => 100
  | PieceKind.knight => 300
  | PieceKind.bishop => 300
  | PieceKind.rook => 500
  | PieceKind.queen => 900
  | PieceKind.king => 0

/-- The combined material of BOTH colors, summed square by square — the
quantity the claim says `material` computes. -/
def combined_material (grid : SetupBoard) : Int :=
  (grid.map (fun sq =>
    match sq with
    | some p => piece_value p.piece_type
    | none => 0)).sum

theorem material_cons (x : Option Piece) (l : SetupBoard) :
    material (x :: l) =
      (match x with
       | some p => piece_value p.piece_type
       | none => 0) + material l := by
  cases x with
  | none =>
    simp [material, pieces_count, piece_values, List.countP_cons]
  | some p =>
    obtain ⟨c, pt⟩ := p
    cases c <;> cases pt <;>
      simp [material, pieces_count, piece_values, List.countP_cons,
        piece_value] <;>
      ring

theorem material_eq_combined (grid : SetupBoard) :
    material grid = combined_material grid := by
  induction grid with
  | nil => rfl
  | cons x l ih =>
    rw [material_cons]
    simp only [combined_material, List.map_cons, List.sum_cons]
    rw [ih]
    rfl

/-- C10: for a position that is not checkmate, stalemate or insufficient
material, `evaluate_board` returns the combined material of BOTH colors when
white is to move, and its negation when black is to move. -/
theorem evaluate_board_both_colors (verdicts : GameEnd) (b : EvalBoard)
    (h1 : verdicts.is_checkmate = false)
    (h2 : verdicts.is_stalemate = false)
    (h3 : verdicts.is_insufficient_material = false) :
    evaluate_board verdicts b =
      (if b.turn = Color.white then combined_material b.grid
       else -(combined_material b.grid)) := by
  simp [evaluate_board, h1, h2, h3, material_eq_combined, beq_iff_eq]

def back_rank (c : Color) : List (Option Piece) :=
  [some ⟨c, PieceKind.rook⟩, some ⟨c, PieceKind.knight⟩,
   some ⟨c, PieceKind.bishop⟩, some ⟨c, PieceKind.queen⟩,
   some ⟨c, PieceKind.king⟩, some ⟨c, PieceKind.bishop⟩,
   some ⟨c, PieceKind.knight⟩, some ⟨c, PieceKind.rook⟩]

def pawn_rank (c : Color) : List (Option Piece) :=
  List.replicate 8 (some ⟨c, PieceKind.pawn⟩)

/-- The standard starting position's grid (squares a1 … h8). -/
def start_grid : SetupBoard :=
  back_rank Color.white ++ pawn_rank Color.white ++
    List.replicate 32 none ++
    pawn_rank Color.black ++ back_rank Color.black

/-- Witness for C10: the starting position (not checkmate, stalemate or
insufficient material, per the rules library) evaluates to 7800, not 0. -/
theorem evaluate_board_both_colors_witness :
    evaluate_board ⟨false, false, false⟩ ⟨start_grid, Color.white⟩ = 7800 ∧
    (7800 : Int) ≠ 0 :=
  ⟨by
    rw [evaluate_board_both_colors ⟨false, false, false⟩
        ⟨start_grid, Color.white⟩ rfl rfl rfl]
    decide,
   by decide⟩

end ChessPredictor
